import Mathlib

/-!
Verification of the RabbitMQ-Test routing/delivery specification

The repository (BTK-Hackaton-2025/RabbitMQ-Test) is a collection of Go demo
programs that talk to a RabbitMQ broker.  The core of the spec — the message
routing topology (fanout / direct / topic exchanges), the topology registry,
and the delivery/acknowledgment tracker — is not implemented inside the
repository: it lives in the external broker.  Those components are therefore
modelled here from the words of the spec (definitions marked
`Modelled from the spec:`).  The parts of the claims that concern code in
the repository itself (call-site parameters such as `mandatory = false`,
the exchange lists declared by the services, and the consumer loops
`ConsumeMessages` / `ConsumeOrders`) are embedded directly from the Go
source under `src/`.
-/

namespace RabbitSpec

/-! ## Definitions: routing model (modelled from the spec, §3–§4.2) -/

/-- Modelled from the spec (§3 Data model): an exchange kind is one of
`direct`, `fanout`, `topic`. -/
inductive ExchangeKind
  | direct
  | fanout
  | topic
deriving DecidableEq, Repr

/-- Auxiliary for `splitDot`: accumulates the current segment (reversed)
while scanning the character list. -/
def splitDotAux : List Char → List Char → List String
  | [], acc => [String.mk acc.reverse]
  | '.' :: rest, acc => String.mk acc.reverse :: splitDotAux rest []
  | c :: rest, acc => splitDotAux rest (c :: acc)

/-- Modelled from the spec (§4.2 Router, topic): "routing key and binding
pattern are both segmented on `.`". -/
def splitDot (s : String) : List String :=
  splitDotAux s.data []

/-- Modelled from the spec (§4.2 Router, topic): a binding pattern matches a
routing key, both given as segment lists, when each key segment equals the
corresponding pattern segment, `*` matches exactly one segment, and `#`
matches zero or more segments (for `#` the matcher tries every suffix of
the remaining key). -/
def segMatch : List String → List String → Bool
  | [], ks => ks.isEmpty
  | "#" :: ps, ks => ks.tails.any (fun t => segMatch ps t)
  | "*" :: ps, _ :: ks => segMatch ps ks
  | p :: ps, k :: ks => (p == k) && segMatch ps ks
  | _ :: _, [] => false

/-- Modelled from the spec (§4.2 Router, topic): whether binding pattern
`pattern` matches routing key `key`, both segmented on `.`. -/
def topicMatch (pattern key : String) : Bool :=
  segMatch (splitDot pattern) (splitDot key)

/-- Modelled from the spec (§3 Data model): a binding ties one queue to one
exchange with a routing-key pattern. -/
structure Binding where
  queue : String
  exchange : String
  pattern : String
deriving DecidableEq, Repr

/-- Modelled from the spec (§4.2 Router): whether one binding matches a
publish to exchange `ex` with routing key `key`, under exchange kind `kind`
(fanout ignores the key; direct compares exactly; topic pattern-matches). -/
def bindingMatches (kind : ExchangeKind) (b : Binding) (ex key : String) : Bool :=
  b.exchange == ex &&
    match kind with
    | .fanout => true
    | .direct => b.pattern == key
    | .topic => topicMatch b.pattern key

/-- Modelled from the spec (§4.2 Router):
`route(exchange, routing_key, message) -> set<queue>`; a queue receives at
most one copy even if several of its bindings match, hence the `dedup`. -/
def route (kind : ExchangeKind) (bindings : List Binding) (ex key : String) :
    List String :=
  ((bindings.filter (fun b => bindingMatches kind b ex key)).map Binding.queue).dedup

/-! ## Definitions: publish and unroutable handling (spec §4.2, §6, §7) -/

/-- Modelled from the spec (§7 Error handling): the router-level publish
errors. -/
inductive RouteError
  | UnroutableError
deriving DecidableEq, Repr

/-- Modelled from the spec (§4.2, §6):
`publish(exchange, routing_key, payload, {mandatory}) -> Result`.  If no
queue matches and the publish was marked mandatory, the publisher
synchronously receives `UnroutableError`; otherwise the message is delivered
to (a copy enqueued at) each matched queue — an empty result with no error
being the silent drop. -/
def publish (kind : ExchangeKind) (bindings : List Binding) (ex key : String)
    (mandatory : Bool) : Except RouteError (List String) :=
  let qs := route kind bindings ex key
  if qs.isEmpty && mandatory then .error .UnroutableError else .ok qs

/-- From `src/Stox-RabbitMQ/internal/models/models.go`, `PublishMessage`
(line 236): the `mandatory` argument of `channel.Publish` is the literal
`false`. -/
def stoxPublishMessageMandatory : Bool := false

/-- From `src/docker/internal/rabbitmq/client.go`, `PublishOrder`
(lines 79, 91, 102): all three `PublishWithContext` calls pass `mandatory =
false`. -/
def dockerPublishOrderMandatory : Bool := false

/-- The publish call of the Stox client as the routing model sees it: `PublishMessage`
always publishes with its hard-coded mandatory flag. -/
def stoxPublishMessage (kind : ExchangeKind) (bindings : List Binding)
    (ex key : String) : Except RouteError (List String) :=
  publish kind bindings ex key stoxPublishMessageMandatory

/-! ## Definitions: topology registry (spec §4.1) -/

/-- Modelled from the spec (§4.1, §7): registry-level errors. -/
inductive TopologyError
  | ConflictError
  | NotFoundError
deriving DecidableEq, Repr

/-- Modelled from the spec (§4.1): the exchange table of the topology registry —
name, kind, durable. -/
structure Registry where
  exchanges : List (String × ExchangeKind × Bool)
deriving DecidableEq, Repr

/-- The empty registry. -/
def Registry.empty : Registry := ⟨[]⟩

/-- Modelled from the spec (§4.1):
`declare_exchange(name, kind, durable)` — idempotent; fails with
`ConflictError` if the same name already exists with a different kind. -/
def declareExchange (r : Registry) (name : String) (kind : ExchangeKind)
    (durable : Bool) : Except TopologyError Registry :=
  match r.exchanges.find? (fun e => e.1 == name) with
  | some e => if e.2.1 = kind then .ok r else .error .ConflictError
  | none => .ok ⟨r.exchanges ++ [(name, kind, durable)]⟩

/-- From `src/Stox-RabbitMQ/internal/models/models.go`, `SetupExchanges`
(lines 166–194): the exchange list every Stox service declares at startup
(all durable). -/
def stoxExchanges : List (String × ExchangeKind) :=
  [("stox.images", .topic), ("stox.listings", .fanout),
   ("stox.sync", .direct), ("stox.orders", .topic)]

/-- From `src/Stox-RabbitMQ/internal/models/models.go`, `SetupExchanges`:
declare each exchange of `stoxExchanges` in order (durable = true),
stopping at the first error. -/
def setupExchanges (r : Registry) : Except TopologyError Registry :=
  stoxExchanges.foldlM (fun acc e => declareExchange acc e.1 e.2 true) r

/-- From `src/docker/internal/rabbitmq/client.go`,
`SetupExchangesAndQueues` (lines 55, 61): the exchange
declarations (both durable). -/
def dockerExchanges : List (String × ExchangeKind) :=
  [("order_notifications", .fanout), ("regional_fulfillment", .direct)]

/-- From `src/docker/internal/rabbitmq/client.go`,
`SetupExchangesAndQueues`: declare each exchange of `dockerExchanges` in
order (durable = true), stopping at the first error. -/
def setupDockerExchanges (r : Registry) : Except TopologyError Registry :=
  dockerExchanges.foldlM (fun acc e => declareExchange acc e.1 e.2 true) r

/-- The registry state after one run of `SetupExchanges` from empty. -/
def stoxRegistry : Registry :=
  ⟨[("stox.images", .topic, true), ("stox.listings", .fanout, true),
    ("stox.sync", .direct, true), ("stox.orders", .topic, true)]⟩

/-- The registry state after one run of `SetupExchangesAndQueues` from
empty. -/
def dockerRegistry : Registry :=
  ⟨[("order_notifications", .fanout, true),
    ("regional_fulfillment", .direct, true)]⟩

/-! ## Definitions: delivery/acknowledgment tracker (spec §4.3, §5) -/

/-- Modelled from the spec (§3 Data model): a delivery is a message handed
to one specific consumer, carrying a delivery tag. -/
structure Delivery where
  consumer : Nat
  tag : Nat
  msg : Nat
deriving DecidableEq, Repr

/-- Modelled from the spec (§4.3): the per-queue tracker state — the queue
of pending messages (head = next to deliver) and the in-flight set of
delivered-but-unacknowledged deliveries. -/
structure Tracker where
  queue : List Nat
  unacked : List Delivery
  nextTag : Nat
deriving DecidableEq, Repr

/-- The number of outstanding (delivered, unacked) deliveries held by
consumer `c`. -/
def unackedCount (s : Tracker) (c : Nat) : Nat :=
  (s.unacked.filter (fun d => d.consumer == c)).length

/-- Modelled from the spec (§4.2 side effect): publishing enqueues the
message at the tail of the queue. -/
def publishMsg (s : Tracker) (m : Nat) : Tracker :=
  { s with queue := s.queue ++ [m] }

/-- Modelled from the spec (§4.3 dispatch): pop the head message (FIFO) and
deliver it to consumer `c`, incrementing its unacked count.  (The prefetch
guard lives in the `Step` relation.) -/
def dispatchTo (s : Tracker) (c : Nat) : Tracker :=
  match s.queue with
  | [] => s
  | m :: rest =>
    { queue := rest, unacked := ⟨c, s.nextTag, m⟩ :: s.unacked,
      nextTag := s.nextTag + 1 }

/-- Modelled from the spec (§4.3 ack): remove the delivery permanently,
decrementing the unacked count of the consumer. -/
def ackDelivery (s : Tracker) (d : Delivery) : Tracker :=
  { s with unacked := s.unacked.erase d }

/-- Modelled from the spec (§4.3 nack): if `requeue` is true, reinsert the
message at the head of its queue (so it is redelivered before newer
messages); if false, discard permanently.  Either way the delivery leaves
the in-flight set. -/
def nackDelivery (s : Tracker) (d : Delivery) (requeue : Bool) : Tracker :=
  { s with unacked := s.unacked.erase d,
           queue := if requeue then d.msg :: s.queue else s.queue }

/-- Modelled from the spec (§4.3 failure semantics): a consumer
disconnecting with outstanding unacked deliveries causes the tracker to
requeue all in-flight messages of that consumer (an implicit
nack-with-requeue per message, hence reinserted at the head). -/
def disconnectConsumer (s : Tracker) (c : Nat) : Tracker :=
  { s with unacked := s.unacked.filter (fun d => d.consumer != c),
           queue := ((s.unacked.filter (fun d => d.consumer == c)).map
             Delivery.msg) ++ s.queue }

/-- Modelled from the spec (§4.3): the transition relation of the tracker for
manual-ack consumers, parametrised by the prefetch (QoS) limit of each consumer.
Dispatch is only enabled while the unacked count of the consumer is strictly
below its prefetch limit (the `blocked` state of the spec is the state
where the guard fails). -/
inductive Step (prefetch : Nat → Nat) : Tracker → Tracker → Prop
  | publish (s : Tracker) (m : Nat) : Step prefetch s (publishMsg s m)
  | dispatch (s : Tracker) (c : Nat) (hq : s.queue ≠ [])
      (hcap : unackedCount s c < prefetch c) :
      Step prefetch s (dispatchTo s c)
  | ack (s : Tracker) (d : Delivery) (hd : d ∈ s.unacked) :
      Step prefetch s (ackDelivery s d)
  | nack (s : Tracker) (d : Delivery) (requeue : Bool) (hd : d ∈ s.unacked) :
      Step prefetch s (nackDelivery s d requeue)
  | disconnect (s : Tracker) (c : Nat) :
      Step prefetch s (disconnectConsumer s c)

/-- The initial tracker state: empty queue, nothing in flight. -/
def initTracker : Tracker := ⟨[], [], 0⟩

/-- States reachable from the initial state. -/
def Reachable (prefetch : Nat → Nat) (s : Tracker) : Prop :=
  Relation.ReflTransGen (Step prefetch) initTracker s

/-- From `src/docker/internal/rabbitmq/client.go` line 121
(`c.ch.Qos(1, 0, false)`) and
`src/architecture-guide/scenarios/ecommerce_consumer.go` line 61: the
order-processing workers set a prefetch limit of 1. -/
def processorPrefetch : Nat := 1

/-! ## Definitions: consumer loops embedded from the Go source (C9, C10) -/

/-- The acknowledgment action a consumer loop issues on one delivery:
`ack(multiple)` or `nack(multiple, requeue)`, mirroring
`amqp.Delivery.Ack` / `amqp.Delivery.Nack`. -/
inductive AckAction
  | ack (multiple : Bool)
  | nack (multiple : Bool) (requeue : Bool)
deriving DecidableEq, Repr

/-- The requeue flag an action carries (`false` for ack). -/
def AckAction.requeues : AckAction → Bool
  | .ack _ => false
  | .nack _ r => r

/-- From `src/Stox-RabbitMQ/internal/models/models.go`, `ConsumeMessages`
(lines 269–283): per delivery, if the handler returns an error the loop
calls `d.Nack(false, false)` (no requeue); otherwise it calls
`d.Ack(false)`.  `handlerErr` is whether the handler returned a non-nil
error. -/
def consumeMessagesOutcome (handlerErr : Bool) : AckAction :=
  if handlerErr then .nack false false else .ack false

/-- The four consumer setups `ConsumeOrders` can perform, plus the silent
no-op fall-through. -/
inductive ConsumeBehavior
  | processor
  | notificationSub
  | fulfillment (region : String)
  | noOp
deriving DecidableEq, Repr

/-- From `src/docker/internal/rabbitmq/client.go`, `ConsumeOrders`
(lines 119–157): the branch taken on `workerType`.  `"processor"` consumes
the `order_processing` work queue with Qos 1 and manual ack;
`"inventory"`, `"email"`, `"analytics"` declare an anonymous queue bound to
the `order_notifications` fanout exchange and consume with auto-ack; the
default branch, only when `len(workerType) > 12 &&
workerType[:12] == "fulfillment_"`, declares and binds a regional queue and
consumes with auto-ack; any other worker type does nothing (`msgs` stays
nil) and the function still returns nil. -/
def consumeOrdersBranch (workerType : String) : ConsumeBehavior :=
  if workerType = "processor" then .processor
  else if workerType = "inventory" ∨ workerType = "email" ∨
      workerType = "analytics" then .notificationSub
  else if workerType.data.length > 12 ∧
      workerType.data.take 12 = "fulfillment_".data then
    .fulfillment (String.mk (workerType.data.drop 12))
  else .noOp

/-- Whether a `ConsumeOrders` branch registers a consumer at all, and with
which auto-ack flag (`none` when no consumer is registered). -/
def ConsumeBehavior.autoAck : ConsumeBehavior → Option Bool
  | .processor => some false
  | .notificationSub => some true
  | .fulfillment _ => some true
  | .noOp => none

/-- Whether a `ConsumeOrders` branch declares (and, except for the
processor, binds) a queue.  The processor consumes the pre-declared
`order_processing` queue; the no-op branch touches nothing. -/
def ConsumeBehavior.declaresQueue : ConsumeBehavior → Bool
  | .processor => false
  | .notificationSub => true
  | .fulfillment _ => true
  | .noOp => false

/-- From `src/docker/internal/rabbitmq/client.go`, `ConsumeOrders`
(lines 115–182): the error value the function returns.  In the recognized
branches the function returns the error of the first failing broker
operation (`brokerErr`, `none` when they all succeed); in the fall-through
branch no broker operation is attempted and the function returns nil
unconditionally. -/
def consumeOrdersReturn (workerType : String) (brokerErr : Option String) :
    Option String :=
  match consumeOrdersBranch workerType with
  | .noOp => none
  | _ => brokerErr

/-- From `src/docker/internal/rabbitmq/client.go`, `ConsumeOrders`
goroutine (lines 159–179): the acknowledgment action per delivery.  Only
`workerType == "processor"` ever acks or nacks: on handler error it calls
`d.Nack(false, true)` (requeue), on success `d.Ack(false)`; every other
worker type issues nothing. -/
def consumeOrdersDeliveryAction (workerType : String) (handlerErr : Bool) :
    Option AckAction :=
  if handlerErr then
    if workerType = "processor" then some (.nack false true) else none
  else
    if workerType = "processor" then some (.ack false) else none

/-! ## Theorems -/

/-! ### Topic matching (C1) -/

lemma segMatch_nil (ks : List String) : segMatch [] ks = ks.isEmpty := by
  simp [segMatch]

lemma segMatch_hash (ps ks : List String) :
    segMatch ("#" :: ps) ks = ks.tails.any (fun t => segMatch ps t) := by
  simp [segMatch]

lemma segMatch_star_cons (ps ks : List String) (k : String) :
    segMatch ("*" :: ps) (k :: ks) = segMatch ps ks := by
  simp [segMatch]

lemma segMatch_cons_nil (p : String) (ps : List String) (hp : p ≠ "#") :
    segMatch (p :: ps) [] = false := by
  simp [segMatch, hp]

lemma segMatch_lit_cons (p k : String) (ps ks : List String)
    (hp1 : p ≠ "#") (hp2 : p ≠ "*") :
    segMatch (p :: ps) (k :: ks) = ((p == k) && segMatch ps ks) := by
  simp [segMatch, hp1, hp2]

/-- A wildcard-free pattern matches exactly the identical key. -/
lemma segMatch_exact (ps : List String) (hh : "#" ∉ ps) (hs : "*" ∉ ps) :
    ∀ ks : List String, segMatch ps ks = true ↔ ps = ks := by
  induction ps with
  | nil =>
    intro ks
    cases ks <;> simp [segMatch_nil]
  | cons p ps ih =>
    rw [List.mem_cons, not_or] at hh hs
    obtain ⟨hp1, hh'⟩ := hh
    obtain ⟨hp2, hs'⟩ := hs
    have hp1' : p ≠ "#" := fun h => hp1 h.symm
    have hp2' : p ≠ "*" := fun h => hp2 h.symm
    intro ks
    cases ks with
    | nil => simp [segMatch_cons_nil p ps hp1']
    | cons k ks =>
      rw [segMatch_lit_cons p k ps ks hp1' hp2']
      simp [ih hh' hs' ks]

/-- `*` matches exactly one segment. -/
lemma segMatch_star (ps ks : List String) :
    segMatch ("*" :: ps) ks = true ↔
      ∃ k ks', ks = k :: ks' ∧ segMatch ps ks' = true := by
  cases ks with
  | nil => simp [segMatch_cons_nil "*" ps (by decide)]
  | cons k ks =>
    rw [segMatch_star_cons]
    constructor
    · intro h
      exact ⟨k, ks, rfl, h⟩
    · rintro ⟨k', ks', heq, h⟩
      rw [List.cons.injEq] at heq
      obtain ⟨rfl, rfl⟩ := heq
      exact h

/-- A leading `#` matches zero or more leading segments. -/
lemma segMatch_hash_iff (ps ks : List String) :
    segMatch ("#" :: ps) ks = true ↔
      ∃ ks₁ ks₂, ks = ks₁ ++ ks₂ ∧ segMatch ps ks₂ = true := by
  rw [segMatch_hash, List.any_eq_true]
  constructor
  · rintro ⟨t, ht, hm⟩
    rw [List.mem_tails] at ht
    obtain ⟨ks₁, rfl⟩ := ht
    exact ⟨ks₁, t, rfl, hm⟩
  · rintro ⟨ks₁, ks₂, rfl, hm⟩
    exact ⟨ks₂, (List.mem_tails _ _).mpr ⟨ks₁, rfl⟩, hm⟩

/-- A trailing `#` matches zero or more trailing segments. -/
lemma segMatch_hash_snoc (ps : List String) :
    ∀ ks, segMatch (ps ++ ["#"]) ks = true ↔
      ∃ ks₁ ks₂, ks = ks₁ ++ ks₂ ∧ segMatch ps ks₁ = true := by
  induction ps with
  | nil =>
    intro ks
    constructor
    · intro _
      exact ⟨[], ks, rfl, by simp [segMatch_nil]⟩
    · intro _
      rw [List.nil_append, segMatch_hash_iff]
      exact ⟨ks, [], by simp, by simp [segMatch_nil]⟩
  | cons p ps ih =>
    intro ks
    by_cases hp : p = "#"
    · subst hp
      rw [List.cons_append, segMatch_hash_iff]
      constructor
      · rintro ⟨a, b, rfl, hb⟩
        obtain ⟨b₁, b₂, rfl, h₁⟩ := (ih b).mp hb
        refine ⟨a ++ b₁, b₂, by simp, ?_⟩
        rw [segMatch_hash_iff]
        exact ⟨a, b₁, rfl, h₁⟩
      · rintro ⟨a, b, rfl, ha⟩
        rw [segMatch_hash_iff] at ha
        obtain ⟨a₁, a₂, rfl, h₂⟩ := ha
        refine ⟨a₁, a₂ ++ b, by simp, ?_⟩
        exact (ih _).mpr ⟨a₂, b, rfl, h₂⟩
    · cases ks with
      | nil =>
        rw [List.cons_append, segMatch_cons_nil _ _ hp]
        constructor
        · intro h
          exact absurd h (by simp)
        · rintro ⟨a, b, hab, ha⟩
          obtain ⟨rfl, rfl⟩ := List.append_eq_nil.mp hab.symm
          rw [segMatch_cons_nil _ _ hp] at ha
          exact absurd ha (by simp)
      | cons k ks' =>
        by_cases hps : p = "*"
        · subst hps
          rw [List.cons_append, segMatch_star_cons, ih ks']
          constructor
          · rintro ⟨a, b, rfl, ha⟩
            exact ⟨k :: a, b, rfl, by rw [segMatch_star_cons]; exact ha⟩
          · rintro ⟨a, b, hab, ha⟩
            cases a with
            | nil =>
              rw [segMatch_cons_nil _ _ hp] at ha
              exact absurd ha (by simp)
            | cons a₀ a' =>
              rw [List.cons_append, List.cons.injEq] at hab
              obtain ⟨rfl, rfl⟩ := hab
              rw [segMatch_star_cons] at ha
              exact ⟨a', b, rfl, ha⟩
        · rw [List.cons_append, segMatch_lit_cons _ _ _ _ hp hps,
            Bool.and_eq_true, beq_iff_eq, ih ks']
          constructor
          · rintro ⟨rfl, a, b, rfl, ha⟩
            refine ⟨p :: a, b, rfl, ?_⟩
            rw [segMatch_lit_cons _ _ _ _ hp hps, Bool.and_eq_true, beq_iff_eq]
            exact ⟨rfl, ha⟩
          · rintro ⟨a, b, hab, ha⟩
            cases a with
            | nil =>
              rw [segMatch_cons_nil _ _ hp] at ha
              exact absurd ha (by simp)
            | cons a₀ a' =>
              rw [List.cons_append, List.cons.injEq] at hab
              obtain ⟨rfl, rfl⟩ := hab
              rw [segMatch_lit_cons _ _ _ _ hp hps, Bool.and_eq_true,
                beq_iff_eq] at ha
              obtain ⟨rfl, ha⟩ := ha
              exact ⟨rfl, a', b, rfl, ha⟩

/-- C1.  Topic routing match: segmenting pattern and key on `.`, a
wildcard-free pattern matches exactly the identical segment list, `*`
matches exactly one segment, `#` matches zero or more leading segments when
at the start and zero or more trailing segments when at the end; in
particular `order.amazon.us` matches `order.amazon.*`, `order.#`,
`order.amazon.us` and `#`, but neither `order.trendyol.*` nor
`order.amazon.us.extra`. -/
theorem C1_topic_wildcard_matching :
    (∀ ps ks : List String, "#" ∉ ps → "*" ∉ ps →
      (segMatch ps ks = true ↔ ps = ks)) ∧
    (∀ ps ks : List String, segMatch ("*" :: ps) ks = true ↔
      ∃ k ks', ks = k :: ks' ∧ segMatch ps ks' = true) ∧
    (∀ ps ks : List String, segMatch ("#" :: ps) ks = true ↔
      ∃ ks₁ ks₂, ks = ks₁ ++ ks₂ ∧ segMatch ps ks₂ = true) ∧
    (∀ ps ks : List String, segMatch (ps ++ ["#"]) ks = true ↔
      ∃ ks₁ ks₂, ks = ks₁ ++ ks₂ ∧ segMatch ps ks₁ = true) ∧
    topicMatch "order.amazon.*" "order.amazon.us" = true ∧
    topicMatch "order.#" "order.amazon.us" = true ∧
    topicMatch "order.amazon.us" "order.amazon.us" = true ∧
    topicMatch "#" "order.amazon.us" = true ∧
    topicMatch "order.trendyol.*" "order.amazon.us" = false ∧
    topicMatch "order.amazon.us.extra" "order.amazon.us" = false :=
  ⟨fun ps ks hh hs => segMatch_exact ps hh hs ks,
   segMatch_star,
   segMatch_hash_iff,
   fun ps ks => segMatch_hash_snoc ps ks,
   by decide, by decide, by decide, by decide, by decide, by decide⟩

/-- Witness for C1: the exact-match part applied to the concrete
wildcard-free pattern `order.amazon.us` against the identical key. -/
theorem C1_witness :
    segMatch ["order", "amazon", "us"] ["order", "amazon", "us"] = true :=
  (C1_topic_wildcard_matching.1 ["order", "amazon", "us"]
    ["order", "amazon", "us"] (by decide) (by decide)).mpr rfl

/-! ### Router (C2, C3) -/

/-- Membership in the routed queue set. -/
lemma mem_route (kind : ExchangeKind) (bs : List Binding) (ex key q : String) :
    q ∈ route kind bs ex key ↔
      ∃ b, b ∈ bs ∧ bindingMatches kind b ex key = true ∧ b.queue = q := by
  simp only [route, List.mem_dedup, List.mem_map, List.mem_filter]
  constructor
  · rintro ⟨b, ⟨hb, hm⟩, hq⟩
    exact ⟨b, hb, hm, hq⟩
  · rintro ⟨b, hb, hm, hq⟩
    exact ⟨b, ⟨hb, hm⟩, hq⟩

/-- The routed queue set has no duplicates: a queue receives at most one
copy of each message. -/
lemma nodup_route (kind : ExchangeKind) (bs : List Binding) (ex key : String) :
    (route kind bs ex key).Nodup :=
  List.nodup_dedup _

/-- A queue in the routed set occurs exactly once. -/
lemma count_route_of_mem {kind : ExchangeKind} {bs : List Binding}
    {ex key q : String} (h : q ∈ route kind bs ex key) :
    (route kind bs ex key).count q = 1 := by
  have h1 : (route kind bs ex key).count q ≤ 1 :=
    List.nodup_iff_count_le_one.mp (nodup_route kind bs ex key) q
  have h2 : 0 < (route kind bs ex key).count q := List.count_pos_iff.mpr h
  omega

/-- A queue outside the routed set occurs zero times. -/
lemma count_route_of_not_mem {kind : ExchangeKind} {bs : List Binding}
    {ex key q : String} (h : q ∉ route kind bs ex key) :
    (route kind bs ex key).count q = 0 :=
  List.count_eq_zero.mpr h

/-- A fanout binding matches exactly when it is attached to the exchange. -/
lemma bindingMatches_fanout (b : Binding) (ex key : String) :
    bindingMatches .fanout b ex key = (b.exchange == ex) := by
  simp [bindingMatches]

/-- A direct binding matches exactly when it is attached to the exchange
and its pattern is string-equal to the routing key. -/
lemma bindingMatches_direct (b : Binding) (ex key : String) :
    bindingMatches .direct b ex key = (b.exchange == ex && b.pattern == key) := by
  simp [bindingMatches]

/-- C2.  Fanout completeness: routing on a fanout exchange is independent
of the routing key, every queue bound to the exchange receives exactly one
copy of the message, and unbound queues receive none. -/
theorem C2_fanout_completeness :
    (∀ (bs : List Binding) (ex key₁ key₂ : String),
      route .fanout bs ex key₁ = route .fanout bs ex key₂) ∧
    (∀ (bs : List Binding) (ex key q : String),
      (∃ b, b ∈ bs ∧ b.exchange = ex ∧ b.queue = q) →
      (route .fanout bs ex key).count q = 1) ∧
    (∀ (bs : List Binding) (ex key q : String),
      (∀ b, b ∈ bs → b.exchange = ex → b.queue ≠ q) →
      (route .fanout bs ex key).count q = 0) := by
  refine ⟨fun bs ex key₁ key₂ => ?_, fun bs ex key q h => ?_, fun bs ex key q h => ?_⟩
  · simp [route, bindingMatches]
  · obtain ⟨b, hb, hex, hq⟩ := h
    refine count_route_of_mem ((mem_route _ _ _ _ _).mpr ⟨b, hb, ?_, hq⟩)
    rw [bindingMatches_fanout, beq_iff_eq]
    exact hex
  · refine count_route_of_not_mem (fun hmem => ?_)
    obtain ⟨b, hb, hm, hq⟩ := (mem_route _ _ _ _ _).mp hmem
    rw [bindingMatches_fanout, beq_iff_eq] at hm
    exact h b hb hm hq

/-- Witness for C2: one binding of queue `Q1` to fanout exchange `news`
yields exactly one copy for `Q1`, with an arbitrary routing key. -/
theorem C2_witness :
    (route .fanout [⟨"Q1", "news", ""⟩] "news" "ignored").count "Q1" = 1 :=
  C2_fanout_completeness.2.1 [⟨"Q1", "news", ""⟩] "news" "ignored" "Q1"
    ⟨⟨"Q1", "news", ""⟩, by decide, rfl, rfl⟩

/-- C3.  Direct exactness: a queue is routed to by a direct exchange iff it
has a binding whose pattern is string-equal to the routing key (and then it
receives exactly one copy); a queue all of whose bindings carry keys
different from the routing key receives nothing. -/
theorem C3_direct_exactness :
    (∀ (bs : List Binding) (ex k q : String),
      q ∈ route .direct bs ex k ↔
        ∃ b, b ∈ bs ∧ b.exchange = ex ∧ b.queue = q ∧ b.pattern = k) ∧
    (∀ (bs : List Binding) (ex k q : String),
      (∃ b, b ∈ bs ∧ b.exchange = ex ∧ b.queue = q ∧ b.pattern = k) →
      (route .direct bs ex k).count q = 1) ∧
    (∀ (bs : List Binding) (ex k q : String),
      (∀ b, b ∈ bs → b.exchange = ex → b.queue = q → b.pattern ≠ k) →
      (route .direct bs ex k).count q = 0) := by
  have hmem : ∀ (bs : List Binding) (ex k q : String),
      q ∈ route .direct bs ex k ↔
        ∃ b, b ∈ bs ∧ b.exchange = ex ∧ b.queue = q ∧ b.pattern = k := by
    intro bs ex k q
    rw [mem_route]
    constructor
    · rintro ⟨b, hb, hm, hq⟩
      rw [bindingMatches_direct, Bool.and_eq_true, beq_iff_eq, beq_iff_eq] at hm
      exact ⟨b, hb, hm.1, hq, hm.2⟩
    · rintro ⟨b, hb, hex, hq, hk⟩
      refine ⟨b, hb, ?_, hq⟩
      rw [bindingMatches_direct, Bool.and_eq_true, beq_iff_eq, beq_iff_eq]
      exact ⟨hex, hk⟩
  refine ⟨hmem, fun bs ex k q h => ?_, fun bs ex k q h => ?_⟩
  · exact count_route_of_mem ((hmem bs ex k q).mpr h)
  · refine count_route_of_not_mem (fun hin => ?_)
    obtain ⟨b, hb, hex, hq, hk⟩ := (hmem bs ex k q).mp hin
    exact h b hb hex hq hk

/-- Witness for C3: with `QE` bound to key `error` and `QI` bound to key
`info` on direct exchange `logs`, publishing with key `error` delivers one
copy to `QE` and none to `QI`. -/
theorem C3_witness :
    (route .direct [⟨"QE", "logs", "error"⟩, ⟨"QI", "logs", "info"⟩]
        "logs" "error").count "QE" = 1 ∧
    (route .direct [⟨"QE", "logs", "error"⟩, ⟨"QI", "logs", "info"⟩]
        "logs" "error").count "QI" = 0 :=
  ⟨C3_direct_exactness.2.1 [⟨"QE", "logs", "error"⟩, ⟨"QI", "logs", "info"⟩]
      "logs" "error" "QE" ⟨⟨"QE", "logs", "error"⟩, by decide, rfl, rfl, rfl⟩,
   C3_direct_exactness.2.2 [⟨"QE", "logs", "error"⟩, ⟨"QI", "logs", "info"⟩]
      "logs" "error" "QI" (by decide)⟩

/-! ### Unroutable publishes (C7) -/

/-- C7.  Unroutable publish handling: when the routed queue set is empty, a
mandatory publish synchronously returns `UnroutableError` while a
non-mandatory publish succeeds having delivered to no queue (silent drop);
when some queue matches, the publish succeeds regardless of the mandatory
flag; and the example programs publish with `mandatory = false` (both the
Stox client and the docker client), so their unmatched messages vanish
without error. -/
theorem C7_unroutable_publish :
    (∀ (kind : ExchangeKind) (bs : List Binding) (ex key : String),
      route kind bs ex key = [] →
      publish kind bs ex key true = .error .UnroutableError) ∧
    (∀ (kind : ExchangeKind) (bs : List Binding) (ex key : String),
      route kind bs ex key = [] →
      publish kind bs ex key false = .ok []) ∧
    (∀ (kind : ExchangeKind) (bs : List Binding) (ex key : String)
      (m : Bool), route kind bs ex key ≠ [] →
      publish kind bs ex key m = .ok (route kind bs ex key)) ∧
    stoxPublishMessageMandatory = false ∧
    dockerPublishOrderMandatory = false ∧
    (∀ (kind : ExchangeKind) (bs : List Binding) (ex key : String),
      route kind bs ex key = [] →
      stoxPublishMessage kind bs ex key = .ok []) := by
  refine ⟨fun kind bs ex key h => ?_, fun kind bs ex key h => ?_,
    fun kind bs ex key m h => ?_, rfl, rfl, fun kind bs ex key h => ?_⟩
  · simp [publish, h]
  · simp [publish, h]
  · simp [publish, List.isEmpty_iff.not.mpr h]
  · simp [stoxPublishMessage, stoxPublishMessageMandatory, publish, h]

/-- Witness for C7: publishing to a direct exchange with no bindings and
the mandatory flag set yields `UnroutableError`. -/
theorem C7_witness :
    publish .direct [] "logs" "error" true = .error .UnroutableError :=
  C7_unroutable_publish.1 .direct [] "logs" "error" rfl

/-! ### Exchange declaration (C8) -/

/-- `find?` by name returns the member entry when entry names are unique. -/
lemma find?_name_of_mem_nodup (l : List (String × ExchangeKind × Bool))
    (hn : (l.map Prod.fst).Nodup) (name : String) (kind : ExchangeKind)
    (dur : Bool) (he : (name, kind, dur) ∈ l) :
    l.find? (fun x => x.1 == name) = some (name, kind, dur) := by
  induction l with
  | nil => cases he
  | cons a l ih =>
    rw [List.map_cons, List.nodup_cons] at hn
    rcases List.mem_cons.mp he with h | he'
    · rw [← h]
      rw [List.find?_cons_of_pos]
      simp
    · rw [List.find?_cons_of_neg]
      · exact ih hn.2 he'
      · rw [beq_iff_eq]
        intro h
        refine hn.1 ?_
        rw [h]
        exact List.mem_map_of_mem Prod.fst he'

/-- C8.  Exchange declaration is idempotent with conflict detection:
redeclaring with the same kind succeeds and leaves the registry unchanged;
declaring a name that exists with a different kind fails with
`ConflictError`; concretely, the exchange setup of both the Stox services
and the docker service succeeds from empty and a second run returns the
same registry unchanged, while redeclaring `stox.images` (a topic
exchange) as fanout is a conflict. -/
theorem C8_exchange_declare_idempotent_conflict :
    (∀ (r : Registry) (name : String) (kind : ExchangeKind) (durable : Bool)
      (r' : Registry), declareExchange r name kind durable = .ok r' →
      declareExchange r' name kind durable = .ok r') ∧
    (∀ (r : Registry) (name : String) (kind kind' : ExchangeKind)
      (dur' durable : Bool), (r.exchanges.map Prod.fst).Nodup →
      (name, kind', dur') ∈ r.exchanges → kind' ≠ kind →
      declareExchange r name kind durable = .error .ConflictError) ∧
    setupExchanges Registry.empty = .ok stoxRegistry ∧
    setupExchanges stoxRegistry = .ok stoxRegistry ∧
    setupDockerExchanges Registry.empty = .ok dockerRegistry ∧
    setupDockerExchanges dockerRegistry = .ok dockerRegistry ∧
    declareExchange stoxRegistry "stox.images" .fanout true
      = .error .ConflictError := by
  refine ⟨?_, ?_, rfl, rfl, rfl, rfl, rfl⟩
  · intro r name kind durable r' h
    cases hf : r.exchanges.find? (fun e => e.1 == name) with
    | some e =>
      simp only [declareExchange, hf] at h
      by_cases hk : e.2.1 = kind
      · rw [if_pos hk] at h
        obtain rfl := Except.ok.inj h
        simp [declareExchange, hf, hk]
      · rw [if_neg hk] at h
        simp at h
    | none =>
      simp only [declareExchange, hf] at h
      obtain rfl := Except.ok.inj h
      have hfind : (r.exchanges ++ [(name, kind, durable)]).find?
          (fun e => e.1 == name) = some (name, kind, durable) := by
        rw [List.find?_append, hf]
        simp
      simp [declareExchange, hfind]
  · intro r name kind kind' dur' durable hn hmem hk
    have hf := find?_name_of_mem_nodup r.exchanges hn name kind' dur' hmem
    simp [declareExchange, hf, hk]

/-- Witness for C8: redeclaring the single exchange of a one-entry registry
with the same kind returns the registry unchanged, by the idempotence part
applied to the declaration that created it; and redeclaring it with a
different kind conflicts, by the conflict part. -/
theorem C8_witness :
    declareExchange ⟨[("news", ExchangeKind.fanout, true)]⟩ "news"
        ExchangeKind.fanout true = .ok ⟨[("news", ExchangeKind.fanout, true)]⟩ ∧
    declareExchange ⟨[("news", ExchangeKind.fanout, true)]⟩ "news"
        ExchangeKind.topic true = .error .ConflictError :=
  ⟨C8_exchange_declare_idempotent_conflict.1 Registry.empty "news"
      ExchangeKind.fanout true ⟨[("news", ExchangeKind.fanout, true)]⟩ rfl,
   C8_exchange_declare_idempotent_conflict.2.1
      ⟨[("news", ExchangeKind.fanout, true)]⟩ "news" ExchangeKind.topic
      ExchangeKind.fanout true true (by decide) (by decide) (by decide)⟩

/-! ### Delivery/acknowledgment tracker (C4, C5, C6) -/

lemma unackedCount_publish (s : Tracker) (m c : Nat) :
    unackedCount (publishMsg s m) c = unackedCount s c := rfl

lemma unackedCount_ack_le (s : Tracker) (d : Delivery) (c : Nat) :
    unackedCount (ackDelivery s d) c ≤ unackedCount s c := by
  simp only [unackedCount, ackDelivery]
  exact ((s.unacked.erase_sublist d).filter _).length_le

lemma unackedCount_nack_le (s : Tracker) (d : Delivery) (requeue : Bool)
    (c : Nat) : unackedCount (nackDelivery s d requeue) c ≤ unackedCount s c := by
  simp only [unackedCount, nackDelivery]
  exact ((s.unacked.erase_sublist d).filter _).length_le

lemma unackedCount_disconnect_le (s : Tracker) (c₀ c : Nat) :
    unackedCount (disconnectConsumer s c₀) c ≤ unackedCount s c := by
  simp only [unackedCount, disconnectConsumer]
  exact ((List.filter_sublist s.unacked).filter _).length_le

/-- The prefetch-bound invariant holds in every reachable tracker state. -/
lemma tracker_prefetch_invariant (prefetch : Nat → Nat) (s : Tracker)
    (h : Reachable prefetch s) : ∀ c, unackedCount s c ≤ prefetch c := by
  induction h with
  | refl =>
    intro c
    simp [initTracker, unackedCount]
  | @tail t u _ step ih =>
    intro c
    cases step with
    | publish m =>
      rw [unackedCount_publish]
      exact ih c
    | dispatch c₀ hq hcap =>
      cases hqq : t.queue with
      | nil => exact absurd hqq hq
      | cons m rest =>
        have h1 : unackedCount t c₀ < prefetch c₀ := hcap
        simp only [unackedCount] at h1
        by_cases hc : c₀ = c
        · subst hc
          simp only [dispatchTo, hqq, unackedCount, List.filter_cons]
          simp
          omega
        · simp only [dispatchTo, hqq, unackedCount, List.filter_cons]
          have hb : ((⟨c₀, t.nextTag, m⟩ : Delivery).consumer == c) = false := by
            simp [hc]
          simp [hb]
          exact ih c
    | ack d hd =>
      exact le_trans (unackedCount_ack_le t d c) (ih c)
    | nack d requeue hd =>
      exact le_trans (unackedCount_nack_le t d requeue c) (ih c)
    | disconnect c₀ =>
      exact le_trans (unackedCount_disconnect_le t c₀ c) (ih c)

/-- C4.  Prefetch bound invariant: in every reachable tracker state the
number of outstanding (delivered, unacknowledged) deliveries to a consumer
never exceeds its prefetch limit; in particular with the prefetch of the
order-processing workers (`Qos(1, 0, false)`, i.e. `processorPrefetch = 1`)
a consumer never holds more than one unacked delivery. -/
theorem C4_prefetch_bound :
    (∀ (prefetch : Nat → Nat) (s : Tracker), Reachable prefetch s →
      ∀ c, unackedCount s c ≤ prefetch c) ∧
    (∀ s : Tracker, Reachable (fun _ => processorPrefetch) s →
      ∀ c, unackedCount s c ≤ 1) :=
  ⟨tracker_prefetch_invariant,
   fun s h c => tracker_prefetch_invariant (fun _ => processorPrefetch) s h c⟩

/-- Witness for C4: the state reached by publishing one message and
dispatching it to consumer 0 under the processor prefetch of 1. -/
theorem C4_witness :
    unackedCount (dispatchTo (publishMsg initTracker 7) 0) 0 ≤ 1 :=
  C4_prefetch_bound.2 (dispatchTo (publishMsg initTracker 7) 0)
    (Relation.ReflTransGen.tail
      (Relation.ReflTransGen.tail Relation.ReflTransGen.refl
        (Step.publish initTracker 7))
      (Step.dispatch (publishMsg initTracker 7) 0 (by decide) (by decide))) 0

/-- C5.  FIFO with head-requeue: publishing appends at the tail and
dispatch pops the head (FIFO); a nack with requeue reinserts the nacked
message at the head of the queue, ahead of every not-yet-delivered message,
so the next dispatch redelivers it while all previously pending messages
are still waiting behind it. -/
theorem C5_fifo_head_requeue :
    (∀ (s : Tracker) (m : Nat), (publishMsg s m).queue = s.queue ++ [m]) ∧
    (∀ (s : Tracker) (c m : Nat) (rest : List Nat), s.queue = m :: rest →
      (dispatchTo s c).queue = rest ∧
      (dispatchTo s c).unacked = ⟨c, s.nextTag, m⟩ :: s.unacked) ∧
    (∀ (s : Tracker) (d : Delivery), d ∈ s.unacked →
      (nackDelivery s d true).queue = d.msg :: s.queue) ∧
    (∀ (s : Tracker) (d : Delivery) (c' : Nat), d ∈ s.unacked →
      (dispatchTo (nackDelivery s d true) c').unacked =
        ⟨c', s.nextTag, d.msg⟩ :: s.unacked.erase d ∧
      ∀ b, b ∈ s.queue → b ∈ (dispatchTo (nackDelivery s d true) c').queue) := by
  refine ⟨fun s m => rfl, fun s c m rest hq => ?_, fun s d _ => rfl,
    fun s d c' _ => ⟨rfl, fun b hb => ?_⟩⟩
  · constructor
    · simp [dispatchTo, hq]
    · simp [dispatchTo, hq]
  · exact hb

/-- Witness for C5: with message 1 in flight as delivery ⟨0, 5, 1⟩ and
message 2 pending, a nack-with-requeue puts 1 back at the head, in front
of 2. -/
theorem C5_witness :
    (nackDelivery ⟨[2], [⟨0, 5, 1⟩], 6⟩ ⟨0, 5, 1⟩ true).queue = [1, 2] :=
  C5_fifo_head_requeue.2.2.1 ⟨[2], [⟨0, 5, 1⟩], 6⟩ ⟨0, 5, 1⟩ (by decide)

/-- C6.  Crash requeue (at-least-once): when a consumer disconnects, it
retains no unacked deliveries, every message it held in flight is back in
the queue (available to the other consumers of the queue), the queue grew
by exactly the number M of deliveries it held, and the in-flight deliveries
of every other consumer are untouched. -/
theorem C6_crash_requeue :
    ∀ (s : Tracker) (c : Nat),
      unackedCount (disconnectConsumer s c) c = 0 ∧
      (∀ d : Delivery, d ∈ s.unacked → d.consumer = c →
        d.msg ∈ (disconnectConsumer s c).queue) ∧
      (disconnectConsumer s c).queue.length
        = unackedCount s c + s.queue.length ∧
      (∀ d : Delivery, d ∈ s.unacked → d.consumer ≠ c →
        d ∈ (disconnectConsumer s c).unacked) := by
  intro s c
  refine ⟨?_, fun d hd hdc => ?_, ?_, fun d hd hdc => ?_⟩
  · simp only [unackedCount, disconnectConsumer, List.filter_filter]
    have hf : ∀ d : Delivery, ((d.consumer != c) && (d.consumer == c)) = false := by
      intro d
      by_cases h : d.consumer = c <;> simp [h]
    simp [hf]
  · simp only [disconnectConsumer, List.mem_append]
    left
    exact List.mem_map_of_mem Delivery.msg
      (List.mem_filter.mpr ⟨hd, by simp [hdc]⟩)
  · simp [disconnectConsumer, unackedCount]
  · simp only [disconnectConsumer]
    exact List.mem_filter.mpr ⟨hd, by simp [hdc]⟩

/-- Witness for C6: consumer 1 disconnects holding message 42 in flight;
the message lands back in the queue. -/
theorem C6_witness :
    (42 : Nat) ∈ (disconnectConsumer ⟨[7], [⟨1, 0, 42⟩], 1⟩ 1).queue :=
  (C6_crash_requeue ⟨[7], [⟨1, 0, 42⟩], 1⟩ 1).2.1 ⟨1, 0, 42⟩ (by decide) rfl

/-! ### Consumer loops from the Go source (C9, C10) -/

/-- C9.  The Stox `ConsumeMessages` loop gives every delivery exactly one
of two outcomes: `Ack(false)` when the handler returns nil, and
`Nack(false, false)` — discard without requeue — when the handler returns
an error; no outcome ever carries `requeue = true`, so a handler error
never causes redelivery. -/
theorem C9_consume_messages_ack_discipline :
    consumeMessagesOutcome false = .ack false ∧
    consumeMessagesOutcome true = .nack false false ∧
    (∀ e : Bool, (consumeMessagesOutcome e).requeues = false) ∧
    (∀ e : Bool, consumeMessagesOutcome e = .ack false
      ∨ consumeMessagesOutcome e = .nack false false) ∧
    (∀ e : Bool, consumeMessagesOutcome e = .nack false false ↔ e = true) := by
  refine ⟨rfl, rfl, fun e => ?_, fun e => ?_, fun e => ?_⟩ <;> cases e <;> simp [consumeMessagesOutcome, AckAction.requeues]

/-- C10.  `ConsumeOrders` fall-through and acknowledgment discipline: a
worker type that is none of the four recognized names and does not satisfy
the fulfillment condition (`length > 12` with prefix `fulfillment_`) takes
the no-op branch — no queue declared or bound, no consumer registered —
yet the call still returns nil; only the processor branch acks/nacks
(nack with requeue on handler error), all other recognized branches
consume with auto-ack. -/
theorem C10_consume_orders_fallthrough :
    (∀ wt : String, wt ≠ "processor" → wt ≠ "inventory" → wt ≠ "email" →
      wt ≠ "analytics" →
      ¬(wt.data.length > 12 ∧ wt.data.take 12 = "fulfillment_".data) →
      consumeOrdersBranch wt = .noOp ∧
      (consumeOrdersBranch wt).declaresQueue = false ∧
      (consumeOrdersBranch wt).autoAck = none ∧
      ∀ brokerErr, consumeOrdersReturn wt brokerErr = none) ∧
    consumeOrdersDeliveryAction "processor" true = some (.nack false true) ∧
    consumeOrdersDeliveryAction "processor" false = some (.ack false) ∧
    (∀ (wt : String) (e : Bool), wt ≠ "processor" →
      consumeOrdersDeliveryAction wt e = none) ∧
    (consumeOrdersBranch "processor").autoAck = some false ∧
    (consumeOrdersBranch "inventory").autoAck = some true ∧
    (consumeOrdersBranch "email").autoAck = some true ∧
    (consumeOrdersBranch "analytics").autoAck = some true ∧
    consumeOrdersBranch "fulfillment_us" = .fulfillment "us" ∧
    (consumeOrdersBranch "fulfillment_us").autoAck = some true ∧
    consumeOrdersBranch "fulfillment_" = .noOp := by
  refine ⟨fun wt h1 h2 h3 h4 h5 => ?_, rfl, rfl, fun wt e h => ?_,
    by decide, by decide, by decide, by decide, by decide, by decide, by decide⟩
  · have hb : consumeOrdersBranch wt = .noOp := by
      rw [consumeOrdersBranch]
      rw [if_neg h1, if_neg ?_, if_neg h5]
      rintro (h | h | h)
      · exact h2 h
      · exact h3 h
      · exact h4 h
    refine ⟨hb, by rw [hb]; rfl, by rw [hb]; rfl, fun brokerErr => ?_⟩
    rw [consumeOrdersReturn, hb]
  · cases e <;> simp [consumeOrdersDeliveryAction, h]

/-- Witness for C10: the worker type `logger` is unrecognized, so the
branch is the silent no-op and the return value is still nil. -/
theorem C10_witness :
    consumeOrdersBranch "logger" = ConsumeBehavior.noOp ∧
    consumeOrdersReturn "logger" (some "boom") = none :=
  ⟨(C10_consume_orders_fallthrough.1 "logger" (by decide) (by decide)
      (by decide) (by decide) (by decide)).1,
   (C10_consume_orders_fallthrough.1 "logger" (by decide) (by decide)
      (by decide) (by decide) (by decide)).2.2.2 (some "boom")⟩

end RabbitSpec
